import Mathlib

/- Verification of the cagrx return-metrics engine (src/cagrx/return_metrics.py),
   shallowly embedded in Lean.  Calendar dates are integer day counts, Python
   floats are modelled as real numbers, Python `round(x, k)` as nearest-integer
   rounding at the k-th decimal place, and raised exceptions (ValueError /
   IndexError) as `Except.error` values.  The calendar-aware offset
   `pd.DateOffset(years=n)` is kept abstract: the functions that use it take a
   `subYears` argument, and concrete instantiations use the 365-day model on
   inputs where the two agree. -/

open List

open scoped Classical

namespace Cagrx

/-- Failure kinds raised by the return-metrics functions (ValueError /
IndexError in the Python source). -/
inductive MetricError where
  | invalidInput
  | convergenceFailure
  | outOfBounds
  deriving DecidableEq

/-- Python `round(x, 2)`: nearest-integer rounding at two decimal places. -/
noncomputable def round2 (x : ℝ) : ℝ := (round (x * 100) : ℝ) / 100

/-- Python `round(x, 3)`: nearest-integer rounding at three decimal places. -/
noncomputable def round3 (x : ℝ) : ℝ := (round (x * 1000) : ℝ) / 1000

/-- Python `round(x, 4)`: nearest-integer rounding at four decimal places. -/
noncomputable def round4 (x : ℝ) : ℝ := (round (x * 10000) : ℝ) / 10000

/-- Python `round(x, 6)`: nearest-integer rounding at six decimal places. -/
noncomputable def round6 (x : ℝ) : ℝ := (round (x * 1000000) : ℝ) / 1000000

/-- A NAV series row: (date as day count, value). -/
abbrev NavRow := ℤ × ℝ

/-- The date-ordering used to sort series rows (pandas `sort_index`). -/
def dateLe (p q : NavRow) : Prop := p.1 ≤ q.1

instance : DecidableRel dateLe := fun p q => Int.decLe p.1 q.1

instance : IsTotal NavRow dateLe := ⟨fun a b => le_total a.1 b.1⟩

instance : IsTrans NavRow dateLe := ⟨fun _ _ _ h h2 => le_trans h h2⟩

/-- Stable sort of a series by date (pandas `df.sort_index()`). -/
def sortByDate (l : List NavRow) : List NavRow := l.insertionSort dateLe

/-- A series whose rows are in ascending date order. -/
def SortedByDate (l : List NavRow) : Prop := l.Sorted dateLe

instance (l : List NavRow) : Decidable (SortedByDate l) :=
  List.decidableSorted l

/-- Embedding of `cagr(df, column)` from return_metrics.py: start and end
values are the first and last rows, `num_years = (last date - first date)
/ 365`, a ValueError when `start_value <= 0 or num_years <= 0`, otherwise
`round((end_value / start_value) ** (1 / num_years) - 1, 3)`.  The function
does not sort its input.  (On an empty frame the Python raises IndexError,
modelled as the same error value; no claim touches that case.) -/
noncomputable def cagr (df : List NavRow) : Except MetricError ℝ :=
  match df with
  | [] => .error .invalidInput
  | x :: xs =>
    if x.2 ≤ 0 ∨ ((((x :: xs).getLast (cons_ne_nil x xs)).1 - x.1 : ℤ) : ℝ) / 365 ≤ 0 then
      .error .invalidInput
    else
      .ok (round3 ((((x :: xs).getLast (cons_ne_nil x xs)).2 / x.2) ^
        (1 / (((((x :: xs).getLast (cons_ne_nil x xs)).1 - x.1 : ℤ) : ℝ) / 365)) - 1))

/-- Claim C1: for every non-empty NAV series sorted ascending by date,
`cagr` computes elapsed years as (last date - first date) in days divided by
365, fails with InvalidInput exactly when the first value is ≤ 0 or elapsed
years is ≤ 0, and otherwise returns `(end/start)^(1/years) - 1` rounded to
3 decimal places. -/
theorem cagr_spec (df : List NavRow) (hne : df ≠ []) (hs : SortedByDate df) :
    (cagr df = .error .invalidInput ↔
      (df.head hne).2 ≤ 0 ∨ (((df.getLast hne).1 - (df.head hne).1 : ℤ) : ℝ) / 365 ≤ 0)
    ∧ (¬((df.head hne).2 ≤ 0 ∨ (((df.getLast hne).1 - (df.head hne).1 : ℤ) : ℝ) / 365 ≤ 0) →
      cagr df = .ok (round3 (((df.getLast hne).2 / (df.head hne).2) ^
        (1 / ((((df.getLast hne).1 - (df.head hne).1 : ℤ) : ℝ) / 365)) - 1))) := by
  rcases df with _ | ⟨x, xs⟩
  · exact absurd rfl hne
  · simp only [cagr, head_cons]
    by_cases h : x.2 ≤ 0 ∨ ((((x :: xs).getLast (cons_ne_nil x xs)).1 - x.1 : ℤ) : ℝ) / 365 ≤ 0
    · rw [if_pos h]
      exact ⟨⟨fun _ => h, fun _ => rfl⟩, fun hc => absurd h hc⟩
    · rw [if_neg h]
      exact ⟨⟨fun hc => Except.noConfusion hc, fun hc => absurd hc h⟩, fun _ => rfl⟩

/-- Witness for C1 at the concrete sorted two-point series
[(0, 100), (365, 110)]. -/
theorem cagr_spec_witness :
    SortedByDate [((0 : ℤ), (100 : ℝ)), (365, 110)] ∧
    (cagr [((0 : ℤ), (100 : ℝ)), (365, 110)] = .error .invalidInput ↔
      (([((0 : ℤ), (100 : ℝ)), (365, 110)].head (by simp)).2 ≤ 0 ∨
        ((([((0 : ℤ), (100 : ℝ)), (365, 110)].getLast (by simp)).1 -
          ([((0 : ℤ), (100 : ℝ)), (365, 110)].head (by simp)).1 : ℤ) : ℝ) / 365 ≤ 0)) :=
  ⟨by decide, (cagr_spec [((0 : ℤ), (100 : ℝ)), (365, 110)] (by simp) (by decide)).1⟩

/-- Keys of the dictionary built by `calculate_trailing_cagr`: the f-string
key for a positive window (〔w〕Y_CAGR) and the Max_CAGR key for the -1
sentinel. -/
inductive CagrKey where
  | maxKey
  | yearKey (w : ℤ)
  deriving DecidableEq

/-- First-match lookup in the association list of window results. -/
def findEntry (k : CagrKey) : List (CagrKey × Option ℝ) → Option (Option ℝ)
  | [] => none
  | (k2, v) :: rest => if k = k2 then some v else findEntry k rest

/-- Embedding of `df.loc[start_date:]` on a date-sorted frame: the rows whose
date is at least `start_date`. -/
def sliceFrom (start : ℤ) (df : List NavRow) : List NavRow :=
  df.filter (fun p => start ≤ p.1)

/-- The 365-day-per-year date model of `pd.DateOffset(years=y)` subtraction,
used to instantiate the abstract `subYears` argument on concrete dates where
the calendar offset is exactly `365 * y` days. -/
def sub365 (d : ℤ) (y : ℤ) : ℤ := d - 365 * y

/-- The per-window loop of `calculate_trailing_cagr` from return_metrics.py:
the sentinel -1 stores `cagr` of the whole frame under the Max key; a
positive window computes `start_date = df.index[-1] - DateOffset(years=w)`
(abstracted as `subYears`), stores `None` when `start_date` precedes the
first index date, and otherwise stores `cagr` of the slice from
`start_date`.  A ValueError raised by `cagr`, or indexing an empty frame,
aborts the whole call. -/
noncomputable def trailingLoop (subYears : ℤ → ℤ → ℤ) :
    List NavRow → List ℤ → Except MetricError (List (CagrKey × Option ℝ))
  | _, [] => .ok []
  | [], _ :: _ => .error .invalidInput
  | x :: xs, p :: rest =>
    if p = -1 then
      match cagr (x :: xs) with
      | .error e => .error e
      | .ok v =>
        (trailingLoop subYears (x :: xs) rest).map (fun acc => (CagrKey.maxKey, some v) :: acc)
    else
      if subYears ((x :: xs).getLast (cons_ne_nil x xs)).1 p < x.1 then
        (trailingLoop subYears (x :: xs) rest).map
          (fun acc => (CagrKey.yearKey p, none) :: acc)
      else
        match cagr (sliceFrom (subYears ((x :: xs).getLast (cons_ne_nil x xs)).1 p) (x :: xs)) with
        | .error e => .error e
        | .ok v =>
          (trailingLoop subYears (x :: xs) rest).map
            (fun acc => (CagrKey.yearKey p, some v) :: acc)

/-- Embedding of `calculate_trailing_cagr(df, column, periods)`: sort the
frame by date, then run the per-window loop. -/
noncomputable def calculate_trailing_cagr (subYears : ℤ → ℤ → ℤ) (df : List NavRow)
    (periods : List ℤ) : Except MetricError (List (CagrKey × Option ℝ)) :=
  trailingLoop subYears (sortByDate df) periods

/-- Structure of a successful `trailingLoop` run on a non-empty frame: a
positive window's entry is `none` exactly when its target start date precedes
the first date, and a requested -1 sentinel yields a Max entry holding the
`cagr` of the whole frame. -/
theorem trailingLoop_spec (subYears : ℤ → ℤ → ℤ) (x : NavRow) (xs : List NavRow)
    (periods : List ℤ) (m : List (CagrKey × Option ℝ))
    (h : trailingLoop subYears (x :: xs) periods = .ok m) :
    (∀ w : ℤ, 0 < w → w ∈ periods →
      (findEntry (CagrKey.yearKey w) m = some none ↔
        subYears ((x :: xs).getLast (cons_ne_nil x xs)).1 w < x.1))
    ∧ (-1 ∈ periods →
      ∃ v, findEntry CagrKey.maxKey m = some (some v) ∧ cagr (x :: xs) = .ok v) := by
  induction periods generalizing m with
  | nil =>
    simp only [trailingLoop, Except.ok.injEq] at h
    subst h
    exact ⟨fun w _ hw => absurd hw (not_mem_nil w), fun hw => absurd hw (not_mem_nil _)⟩
  | cons p rest ih =>
    rw [trailingLoop] at h
    by_cases hp : p = -1
    · rw [if_pos hp] at h
      cases hc : cagr (x :: xs) with
      | error e => rw [hc] at h; exact Except.noConfusion h
      | ok v =>
        rw [hc] at h
        cases hrec : trailingLoop subYears (x :: xs) rest with
        | error e => rw [hrec] at h; exact Except.noConfusion h
        | ok acc =>
          rw [hrec] at h
          simp only [Except.map, Except.ok.injEq] at h
          subst h
          obtain ⟨ih1, _⟩ := ih acc hrec
          constructor
          · intro w hw hmem
            have hwp : w ≠ p := by omega
            have : findEntry (CagrKey.yearKey w) ((CagrKey.maxKey, some v) :: acc)
                = findEntry (CagrKey.yearKey w) acc := by
              simp [findEntry]
            rw [this]
            exact ih1 w hw ((mem_cons.1 hmem).resolve_left
              (fun h1 => absurd (h1.trans hp) (by omega)))
          · intro _
            exact ⟨v, by simp [findEntry], rfl⟩
    · rw [if_neg hp] at h
      by_cases hlt : subYears ((x :: xs).getLast (cons_ne_nil x xs)).1 p < x.1
      · rw [if_pos hlt] at h
        cases hrec : trailingLoop subYears (x :: xs) rest with
        | error e => rw [hrec] at h; exact Except.noConfusion h
        | ok acc =>
          rw [hrec] at h
          simp only [Except.map, Except.ok.injEq] at h
          subst h
          obtain ⟨ih1, ih2⟩ := ih acc hrec
          constructor
          · intro w hw hmem
            by_cases hwp : w = p
            · subst hwp
              simp only [findEntry, if_pos rfl]
              exact ⟨fun _ => hlt, fun _ => rfl⟩
            · have : findEntry (CagrKey.yearKey w) ((CagrKey.yearKey p, (none : Option ℝ)) :: acc)
                  = findEntry (CagrKey.yearKey w) acc := by
                simp [findEntry, hwp]
              rw [this]
              exact ih1 w hw ((mem_cons.1 hmem).resolve_left hwp)
          · intro hmem
            obtain ⟨v, hv, hcv⟩ := ih2 ((mem_cons.1 hmem).resolve_left
              (fun h1 => absurd h1.symm hp))
            exact ⟨v, by simpa [findEntry] using hv, hcv⟩
      · rw [if_neg hlt] at h
        cases hc : cagr (sliceFrom (subYears ((x :: xs).getLast (cons_ne_nil x xs)).1 p) (x :: xs)) with
        | error e => rw [hc] at h; exact Except.noConfusion h
        | ok v =>
          rw [hc] at h
          cases hrec : trailingLoop subYears (x :: xs) rest with
          | error e => rw [hrec] at h; exact Except.noConfusion h
          | ok acc =>
            rw [hrec] at h
            simp only [Except.map, Except.ok.injEq] at h
            subst h
            obtain ⟨ih1, ih2⟩ := ih acc hrec
            constructor
            · intro w hw hmem
              by_cases hwp : w = p
              · subst hwp
                simp only [findEntry, if_pos rfl]
                exact ⟨fun hcon => absurd hcon (by simp), fun hcon => absurd hcon hlt⟩
              · have : findEntry (CagrKey.yearKey w) ((CagrKey.yearKey p, some v) :: acc)
                    = findEntry (CagrKey.yearKey w) acc := by
                  simp [findEntry, hwp]
                rw [this]
                exact ih1 w hw ((mem_cons.1 hmem).resolve_left hwp)
            · intro hmem
              obtain ⟨u, hu, hcu⟩ := ih2 ((mem_cons.1 hmem).resolve_left
                (fun h1 => absurd h1.symm hp))
              exact ⟨u, by simpa [findEntry] using hu, hcu⟩

/-- Claim C4 (amended): for every date-sorted NAV series on which
`calculate_trailing_cagr` with windows [1, -1] returns a mapping, that
mapping carries a Max entry equal to `cagr` of the same series. -/
theorem trailing_max_eq_cagr (subYears : ℤ → ℤ → ℤ) (df : List NavRow)
    (hs : SortedByDate df) (m : List (CagrKey × Option ℝ))
    (h : calculate_trailing_cagr subYears df [1, -1] = .ok m) :
    ∃ v, findEntry CagrKey.maxKey m = some (some v) ∧ cagr df = .ok v := by
  unfold calculate_trailing_cagr at h
  rw [show sortByDate df = df from List.Sorted.insertionSort_eq hs] at h
  rcases df with _ | ⟨x, xs⟩
  · rw [trailingLoop] at h
    exact Except.noConfusion h
  · exact (trailingLoop_spec subYears x xs [1, -1] m h).2 (by decide)

/-- Witness for the amended C4 at the sorted series [(0, 100), (100, 110)]:
the 1-year window is reported absent, and the Max entry equals the
whole-series `cagr`. -/
theorem trailing_max_eq_cagr_witness :
    SortedByDate [((0 : ℤ), (100 : ℝ)), (100, 110)] ∧
    (∃ v, findEntry CagrKey.maxKey
        [(CagrKey.yearKey 1, (none : Option ℝ)),
         (CagrKey.maxKey, some (round3 (((110 : ℝ) / 100) ^ (1 / ((100 : ℝ) / 365)) - 1)))]
        = some (some v) ∧
      cagr [((0 : ℤ), (100 : ℝ)), (100, 110)] = .ok v) :=
  ⟨by decide, trailing_max_eq_cagr sub365 _ (by decide) _
    (by norm_num [calculate_trailing_cagr, sortByDate, insertionSort, orderedInsert,
      dateLe, trailingLoop, sub365, sliceFrom, cagr, List.getLast, Except.map])⟩

/-- Counterexample to C4 as stated: on the sorted series
[(0, 100), (400, 110)] (for instance 2021-01-01 and 2022-02-05, where one
calendar year before the last date is day 35), the 1-year window slices the
series to its single final row, `cagr` of that slice raises ValueError (zero
elapsed years), the whole `calculate_trailing_cagr(series, [1, -1])` call
fails and produces no Max entry at all, while `cagr` on the same series
succeeds. -/
theorem trailing_max_cex :
    calculate_trailing_cagr sub365 [((0 : ℤ), (100 : ℝ)), (400, 110)] [1, -1]
      = .error .invalidInput
    ∧ cagr [((0 : ℤ), (100 : ℝ)), (400, 110)]
      = .ok (round3 (((110 : ℝ) / 100) ^ (1 / ((400 : ℝ) / 365)) - 1)) := by
  constructor
  · norm_num [calculate_trailing_cagr, sortByDate, insertionSort, orderedInsert,
      dateLe, trailingLoop, sub365, sliceFrom, cagr, List.getLast, Except.map]
  · norm_num [cagr, List.getLast]

/-- Claim C6 (amended): whenever `calculate_trailing_cagr` on a non-empty
date-sorted series returns a mapping rather than raising, a positive
requested window w is reported absent (entry None) iff the target start date
`subYears lastDate w` precedes the series' first date, and if the -1
sentinel was requested the mapping carries a Max entry holding the `cagr`
of the entire series. -/
theorem trailing_windows_spec (subYears : ℤ → ℤ → ℤ) (df : List NavRow)
    (periods : List ℤ) (hne : df ≠ []) (hs : SortedByDate df)
    (m : List (CagrKey × Option ℝ))
    (h : calculate_trailing_cagr subYears df periods = .ok m) :
    (∀ w : ℤ, 0 < w → w ∈ periods →
      (findEntry (CagrKey.yearKey w) m = some none ↔
        subYears (df.getLast hne).1 w < (df.head hne).1))
    ∧ (-1 ∈ periods →
      ∃ v, findEntry CagrKey.maxKey m = some (some v) ∧ cagr df = .ok v) := by
  unfold calculate_trailing_cagr at h
  rw [show sortByDate df = df from List.Sorted.insertionSort_eq hs] at h
  rcases df with _ | ⟨x, xs⟩
  · exact absurd rfl hne
  · exact trailingLoop_spec subYears x xs periods m h

/-- Counterexample to the C6 conjunct that the -1 sentinel always succeeds:
on a single-point series the full-series `cagr` has zero elapsed years and
raises, so `calculate_trailing_cagr(series, [-1])` fails. -/
theorem trailing_sentinel_cex :
    calculate_trailing_cagr sub365 [((0 : ℤ), (100 : ℝ))] [-1] = .error .invalidInput := by
  norm_num [calculate_trailing_cagr, sortByDate, insertionSort, orderedInsert,
    dateLe, trailingLoop, cagr, List.getLast]

/-- Witness for the amended C6 at the sorted series [(0, 100), (365, 110)]
with the single requested window 2, whose target start date precedes the
first date. -/
theorem trailing_windows_spec_witness :
    SortedByDate [((0 : ℤ), (100 : ℝ)), (365, 110)] ∧
    ((∀ w : ℤ, 0 < w → w ∈ [(2 : ℤ)] →
      (findEntry (CagrKey.yearKey w) [(CagrKey.yearKey 2, (none : Option ℝ))] = some none ↔
        sub365 (([((0 : ℤ), (100 : ℝ)), (365, 110)].getLast (by simp)).1) w <
          ([((0 : ℤ), (100 : ℝ)), (365, 110)].head (by simp)).1))
    ∧ ((-1 : ℤ) ∈ [(2 : ℤ)] →
      ∃ v, findEntry CagrKey.maxKey [(CagrKey.yearKey 2, (none : Option ℝ))] = some (some v) ∧
        cagr [((0 : ℤ), (100 : ℝ)), (365, 110)] = .ok v)) :=
  ⟨by decide, trailing_windows_spec sub365 _ [2] (by simp) (by decide) _
    (by norm_num [calculate_trailing_cagr, sortByDate, insertionSort, orderedInsert,
      dateLe, trailingLoop, sub365, Except.map, List.getLast])⟩

/-- Backward as-of match (`pd.merge_asof`, default backward direction) on a
date-sorted series: the last row whose date is at most the target, if any. -/
def asofBackward (df : List NavRow) (t : ℤ) : Option NavRow :=
  (df.filter (fun p => p.1 ≤ t)).getLast?

/-- One surviving row of the rolling-returns frame: the `past_date` column
(current date minus the period — the reported past date), the current date,
and the rounded return. -/
structure RollingRow where
  past_date : ℤ
  cur_date : ℤ
  ret : ℝ

/-- The rows of `calculate_rolling_returns` that survive
`dropna(subset=['nav_past'])`: each series row is paired with the backward
as-of match of its `past_date = date - period` (the period subtraction
abstracted as `sub`); rows with no match are dropped, the rest carry
`returns = round((nav_current - nav_past) / nav_past, 3)`. -/
noncomputable def rollingRows (sub : ℤ → ℤ) (df : List NavRow) : List RollingRow :=
  df.filterMap (fun p =>
    (asofBackward df (sub p.1)).map (fun q =>
      ⟨sub p.1, p.1, round3 ((p.2 - q.2) / q.2)⟩))

/-- First row attaining the best value of `f` under the strict preference
`better` (ties resolved to the earlier row), as pandas `idxmax` / `idxmin`. -/
noncomputable def idxBestBy (better : ℝ → ℝ → Prop) (f : RollingRow → ℝ) :
    List RollingRow → Option RollingRow
  | [] => none
  | x :: xs =>
    (idxBestBy better f xs).elim (some x)
      (fun y => if better (f y) (f x) then some y else some x)

/-- pandas `idxmax`: first row with the largest `f`. -/
noncomputable def idxmaxBy (f : RollingRow → ℝ) : List RollingRow → Option RollingRow :=
  idxBestBy (fun a b => b < a) f

/-- pandas `idxmin`: first row with the smallest `f`. -/
noncomputable def idxminBy (f : RollingRow → ℝ) : List RollingRow → Option RollingRow :=
  idxBestBy (fun a b => a < b) f

/-- The summary dictionary produced by `calculate_rolling_returns`. -/
structure RollingMetrics where
  max_returns : ℝ
  max_return_period : ℤ × ℤ
  min_returns : ℝ
  min_return_period : ℤ × ℤ
  avg_return : ℝ

/-- Embedding of `calculate_rolling_returns(df, column, period)`: build the
surviving rows, locate the `idxmax` and `idxmin` rows of the `returns`
column, and report them together with the mean return; on an empty surviving
frame pandas `idxmax` raises ValueError. -/
noncomputable def calculate_rolling_returns (sub : ℤ → ℤ) (df : List NavRow) :
    Except MetricError RollingMetrics :=
  match idxmaxBy RollingRow.ret (rollingRows sub df),
        idxminBy RollingRow.ret (rollingRows sub df) with
  | some mx, some mn =>
    .ok { max_returns := mx.ret,
          max_return_period := (mx.past_date, mx.cur_date),
          min_returns := mn.ret,
          min_return_period := (mn.past_date, mn.cur_date),
          avg_return := round3 ((((rollingRows sub df).map RollingRow.ret).sum /
            ((rollingRows sub df).length : ℝ))) }
  | _, _ => .error .invalidInput

/-- Selection from a non-empty list always yields a row. -/
theorem idxBestBy_cons_some (better : ℝ → ℝ → Prop) (f : RollingRow → ℝ)
    (x : RollingRow) (xs : List RollingRow) :
    ∃ y, idxBestBy better f (x :: xs) = some y := by
  cases h : idxBestBy better f xs with
  | none => exact ⟨x, by simp [idxBestBy, h]⟩
  | some y =>
    by_cases hf : better (f y) (f x)
    · exact ⟨y, by simp [idxBestBy, h, hf]⟩
    · exact ⟨x, by simp [idxBestBy, h, hf]⟩

/-- A selected row is a member of the list it was selected from. -/
theorem idxBestBy_mem (better : ℝ → ℝ → Prop) (f : RollingRow → ℝ) :
    ∀ (l : List RollingRow) (y : RollingRow), idxBestBy better f l = some y → y ∈ l := by
  intro l
  induction l with
  | nil => intro y h; exact Option.noConfusion h
  | cons x xs ih =>
    intro y h
    rw [idxBestBy] at h
    cases hrec : idxBestBy better f xs with
    | none =>
      rw [hrec] at h
      simp only [Option.elim_none, Option.some.injEq] at h
      subst h
      exact mem_cons_self x xs
    | some z =>
      rw [hrec] at h
      simp only [Option.elim_some] at h
      by_cases hf : better (f z) (f x)
      · rw [if_pos hf] at h
        simp only [Option.some.injEq] at h
        exact h ▸ mem_cons_of_mem x (ih z hrec)
      · rw [if_neg hf] at h
        simp only [Option.some.injEq] at h
        exact h ▸ mem_cons_self x xs

/-- A successful backward as-of match is a series row at or before the
target date. -/
theorem asofBackward_mem (df : List NavRow) (t : ℤ) (q : NavRow)
    (h : asofBackward df t = some q) : q ∈ df ∧ q.1 ≤ t := by
  unfold asofBackward at h
  have hmemq : q ∈ (df.filter (fun p => p.1 ≤ t)).getLast? := by
    rw [h]; rfl
  obtain ⟨hne2, heq⟩ := mem_getLast?_eq_getLast hmemq
  have : q ∈ df.filter (fun p => p.1 ≤ t) := heq ▸ getLast_mem hne2
  have := mem_filter.1 this
  exact ⟨this.1, by simpa using this.2⟩

/-- In a sorted non-empty series the head's date bounds every row's date. -/
theorem head_date_le (df : List NavRow) (hne : df ≠ []) (hs : SortedByDate df)
    (q : NavRow) (hq : q ∈ df) : (df.head hne).1 ≤ q.1 := by
  rcases df with _ | ⟨x, xs⟩
  · exact absurd rfl hne
  · rcases mem_cons.1 hq with h1 | h1
    · rw [h1]
      exact le_rfl
    · exact rel_of_sorted_cons hs q h1

/-- Every surviving rolling row reports `past_date = sub cur_date`, a date at
or after the first series date. -/
theorem rollingRows_bounds (sub : ℤ → ℤ) (df : List NavRow) (hne : df ≠ [])
    (hs : SortedByDate df) (r : RollingRow) (hr : r ∈ rollingRows sub df) :
    r.past_date = sub r.cur_date ∧ (df.head hne).1 ≤ r.past_date := by
  unfold rollingRows at hr
  obtain ⟨p, hp, hmap⟩ := mem_filterMap.1 hr
  cases hq : asofBackward df (sub p.1) with
  | none => rw [hq] at hmap; exact Option.noConfusion hmap
  | some q =>
    rw [hq] at hmap
    obtain ⟨hqdf, hqle⟩ := asofBackward_mem df (sub p.1) q hq
    have hr2 : r = ⟨sub p.1, p.1, round3 ((p.2 - q.2) / q.2)⟩ :=
      (Option.some.inj hmap).symm
    subst hr2
    exact ⟨rfl, le_trans (head_date_le df hne hs q hqdf) hqle⟩

/-- Claim C5: for every sorted NAV series and period subtraction on which
`calculate_rolling_returns` succeeds (some row has a backward match), the
reported max_returns pair's past date is at most its current date minus the
period — it is exactly that offset — and is never earlier than the series'
first date. -/
theorem rolling_max_period_bounds (sub : ℤ → ℤ) (df : List NavRow)
    (hne : df ≠ []) (hs : SortedByDate df)
    (hrow : ∃ p ∈ df, ∃ q ∈ df, q.1 ≤ sub p.1) :
    ∃ m, calculate_rolling_returns sub df = .ok m ∧
      m.max_return_period.1 ≤ sub m.max_return_period.2 ∧
      (df.head hne).1 ≤ m.max_return_period.1 := by
  obtain ⟨p, hp, q, hq, hle⟩ := hrow
  have hfilterne : df.filter (fun r => r.1 ≤ sub p.1) ≠ [] :=
    ne_nil_of_mem (mem_filter.2 ⟨hq, by simpa using hle⟩)
  have hqq : asofBackward df (sub p.1) =
      some ((df.filter (fun r => r.1 ≤ sub p.1)).getLast hfilterne) :=
    getLast?_eq_getLast _ hfilterne
  have hrowmem : (⟨sub p.1, p.1,
      round3 ((p.2 - ((df.filter (fun r => r.1 ≤ sub p.1)).getLast hfilterne).2) /
        ((df.filter (fun r => r.1 ≤ sub p.1)).getLast hfilterne).2)⟩ : RollingRow)
      ∈ rollingRows sub df := by
    unfold rollingRows
    exact mem_filterMap.2 ⟨p, hp, by rw [hqq]; rfl⟩
  obtain ⟨x, xs, hxxs⟩ := exists_cons_of_ne_nil (ne_nil_of_mem hrowmem)
  obtain ⟨mx, hmx⟩ : ∃ y, idxmaxBy RollingRow.ret (rollingRows sub df) = some y := by
    rw [hxxs]; exact idxBestBy_cons_some _ _ x xs
  obtain ⟨mn, hmn⟩ : ∃ y, idxminBy RollingRow.ret (rollingRows sub df) = some y := by
    rw [hxxs]; exact idxBestBy_cons_some _ _ x xs
  have hmxmem : mx ∈ rollingRows sub df := idxBestBy_mem _ _ _ _ hmx
  obtain ⟨hpast, hfirst⟩ := rollingRows_bounds sub df hne hs mx hmxmem
  refine ⟨⟨mx.ret, (mx.past_date, mx.cur_date), mn.ret, (mn.past_date, mn.cur_date),
      round3 ((((rollingRows sub df).map RollingRow.ret).sum /
        ((rollingRows sub df).length : ℝ)))⟩, ?_, ?_, ?_⟩
  · unfold calculate_rolling_returns
    rw [hmx, hmn]
  · exact le_of_eq hpast
  · exact hfirst

/-- Witness for C5 at the sorted series [(0, 100), (365, 110)] with a
365-day period. -/
theorem rolling_max_period_bounds_witness :
    SortedByDate [((0 : ℤ), (100 : ℝ)), (365, 110)] ∧
    ∃ m, calculate_rolling_returns (fun d => d - 365) [((0 : ℤ), (100 : ℝ)), (365, 110)] = .ok m ∧
      m.max_return_period.1 ≤ m.max_return_period.2 - 365 ∧
      (([((0 : ℤ), (100 : ℝ)), (365, 110)].head (by simp)).1 ≤ m.max_return_period.1) :=
  ⟨by decide, rolling_max_period_bounds (fun d => d - 365) _ (by simp) (by decide) (by decide)⟩

/-- Ordering of (cashflow, date) pairs by date, for the joint sort that
models `dates.argsort()` followed by reindexing both parallel lists. -/
def cfDateLe (p q : ℝ × ℤ) : Prop := p.2 ≤ q.2

instance : DecidableRel cfDateLe := fun p q => Int.decLe p.2 q.2

instance : IsTotal (ℝ × ℤ) cfDateLe := ⟨fun a b => le_total a.2 b.2⟩

instance : IsTrans (ℝ × ℤ) cfDateLe := ⟨fun _ _ _ h h2 => le_trans h h2⟩

/-- Joint sort of the zipped (cashflow, date) pairs by ascending date. -/
def sortCashflows (l : List (ℝ × ℤ)) : List (ℝ × ℤ) := l.insertionSort cfDateLe

/-- The sorted cashflows paired with their day offsets from the earliest
date: `days = [(date - start_date).days for date in dates]` after the joint
sort, with `start_date = dates[0]`.  (The empty case is unreachable under
the length preconditions of `xirr`.) -/
def xirrDays (cashflows : List ℝ) (dates : List ℤ) : List (ℝ × ℤ) :=
  (sortCashflows (cashflows.zip dates)).head?.elim []
    (fun p0 => (sortCashflows (cashflows.zip dates)).map (fun p => (p.1, p.2 - p0.2)))

/-- The net present value `npv = sum(cf / ((1 + rate) ** (day / 365.0)))`
over the (cashflow, day) pairs. -/
noncomputable def xnpv (pairs : List (ℝ × ℤ)) (rate : ℝ) : ℝ :=
  (pairs.map (fun p => p.1 / (1 + rate) ^ ((p.2 : ℝ) / 365))).sum

/-- The analytic derivative
`dnpv = sum(-cf * day / 365.0 / ((1 + rate) ** (day / 365.0 + 1)))`. -/
noncomputable def xdnpv (pairs : List (ℝ × ℤ)) (rate : ℝ) : ℝ :=
  (pairs.map (fun p => -p.1 * (p.2 : ℝ) / 365 / (1 + rate) ^ ((p.2 : ℝ) / 365 + 1))).sum

/-- The Newton-Raphson loop of `xirr`, fueled by the remaining iteration
count: success (rate rounded to 6 decimals) when `|npv| < tolerance`, and
that check precedes the small-derivative guard `|dnpv| < 1e-10`; the updated
rate is rejected when it leaves the interval [-0.99, 10]; exhausting the
fuel is the did-not-converge failure. -/
noncomputable def newtonLoop (npvF dnpvF : ℝ → ℝ) (tol : ℝ) :
    ℕ → ℝ → Except MetricError ℝ
  | 0, _ => .error .convergenceFailure
  | n + 1, rate =>
    if |npvF rate| < tol then .ok (round6 rate)
    else if |dnpvF rate| < 1 / 10000000000 then .error .convergenceFailure
    else
      if rate - npvF rate / dnpvF rate < -(99 / 100) ∨
          10 < rate - npvF rate / dnpvF rate then
        .error .outOfBounds
      else newtonLoop npvF dnpvF tol n (rate - npvF rate / dnpvF rate)

/-- Embedding of `xirr(cashflows, dates, guess, max_iterations, tolerance)`
from return_metrics.py: the two length preconditions raise ValueError, then
the Newton-Raphson loop runs for at most `max_iterations` iterations. -/
noncomputable def xirr (cashflows : List ℝ) (dates : List ℤ) (guess : ℝ)
    (maxIter : ℕ) (tol : ℝ) : Except MetricError ℝ :=
  if cashflows.length ≠ dates.length then .error .invalidInput
  else if cashflows.length < 2 then .error .invalidInput
  else
    newtonLoop (xnpv (xirrDays cashflows dates)) (xdnpv (xirrDays cashflows dates))
      tol maxIter guess

/-- The Newton-Raphson loop never reports the precondition failure. -/
theorem newtonLoop_ne_invalid (npvF dnpvF : ℝ → ℝ) (tol : ℝ) :
    ∀ (n : ℕ) (rate : ℝ), newtonLoop npvF dnpvF tol n rate ≠ .error .invalidInput := by
  intro n
  induction n with
  | zero =>
    intro rate h
    rw [newtonLoop] at h
    exact MetricError.noConfusion (Except.error.inj h)
  | succ n ih =>
    intro rate h
    rw [newtonLoop] at h
    by_cases h1 : |npvF rate| < tol
    · rw [if_pos h1] at h
      exact Except.noConfusion h
    · rw [if_neg h1] at h
      by_cases hd : |dnpvF rate| < 1 / 10000000000
      · rw [if_pos hd] at h
        exact MetricError.noConfusion (Except.error.inj h)
      · rw [if_neg hd] at h
        by_cases hb : rate - npvF rate / dnpvF rate < -(99 / 100) ∨
            10 < rate - npvF rate / dnpvF rate
        · rw [if_pos hb] at h
          exact MetricError.noConfusion (Except.error.inj h)
        · rw [if_neg hb] at h
          exact ih _ h

/-- Claim C7: `xirr` fails with InvalidInput iff given fewer than 2 cash
flows or amount/date lists of different lengths, independently of the guess,
iteration budget and tolerance — the checks precede the solver loop. -/
theorem xirr_invalid_iff (cashflows : List ℝ) (dates : List ℤ) (guess : ℝ)
    (maxIter : ℕ) (tol : ℝ) :
    xirr cashflows dates guess maxIter tol = .error .invalidInput ↔
      (cashflows.length ≠ dates.length ∨ cashflows.length < 2) := by
  unfold xirr
  by_cases h1 : cashflows.length ≠ dates.length
  · rw [if_pos h1]
    exact ⟨fun _ => Or.inl h1, fun _ => rfl⟩
  · rw [if_neg h1]
    by_cases h2 : cashflows.length < 2
    · rw [if_pos h2]
      exact ⟨fun _ => Or.inr h2, fun _ => rfl⟩
    · rw [if_neg h2]
      constructor
      · intro hcon
        exact absurd hcon (newtonLoop_ne_invalid _ _ _ maxIter guess)
      · intro hcon
        rcases hcon with hc | hc
        · exact absurd hc h1
        · exact absurd hc h2

/-- Every run of the loop ends in success at a rate meeting the tolerance,
or a convergence failure, or an out-of-bounds failure. -/
theorem newtonLoop_outcomes (npvF dnpvF : ℝ → ℝ) (tol : ℝ) :
    ∀ (n : ℕ) (rate : ℝ),
      (∃ ρ, newtonLoop npvF dnpvF tol n rate = .ok (round6 ρ) ∧ |npvF ρ| < tol)
      ∨ newtonLoop npvF dnpvF tol n rate = .error .convergenceFailure
      ∨ newtonLoop npvF dnpvF tol n rate = .error .outOfBounds := by
  intro n
  induction n with
  | zero =>
    intro rate
    right; left
    rw [newtonLoop]
  | succ n ih =>
    intro rate
    rw [newtonLoop]
    by_cases hnpv : |npvF rate| < tol
    · rw [if_pos hnpv]
      exact Or.inl ⟨rate, rfl, hnpv⟩
    · rw [if_neg hnpv]
      by_cases hd : |dnpvF rate| < 1 / 10000000000
      · rw [if_pos hd]
        right; left; rfl
      · rw [if_neg hd]
        by_cases hb : rate - npvF rate / dnpvF rate < -(99 / 100) ∨
            10 < rate - npvF rate / dnpvF rate
        · rw [if_pos hb]
          right; right; rfl
        · rw [if_neg hb]
          exact ih _

/-- Claim C3: under the preconditions, `xirr` (a fuel-bounded loop of at
most `max_iterations` Newton steps) ends in exactly one of: success — a rate
rounded to 6 decimals whose NPV magnitude meets the tolerance; a convergence
failure (small derivative or exhausted iterations); or an out-of-bounds
failure.  Moreover the tolerance check precedes the derivative guard: a
first-iteration guess already meeting the tolerance is returned outright. -/
theorem xirr_outcomes (cashflows : List ℝ) (dates : List ℤ) (guess : ℝ)
    (maxIter : ℕ) (tol : ℝ) (hlen : cashflows.length = dates.length)
    (h2 : 2 ≤ cashflows.length) :
    ((∃ ρ, xirr cashflows dates guess maxIter tol = .ok (round6 ρ) ∧
        |xnpv (xirrDays cashflows dates) ρ| < tol)
      ∨ xirr cashflows dates guess maxIter tol = .error .convergenceFailure
      ∨ xirr cashflows dates guess maxIter tol = .error .outOfBounds)
    ∧ (0 < maxIter → |xnpv (xirrDays cashflows dates) guess| < tol →
        xirr cashflows dates guess maxIter tol = .ok (round6 guess)) := by
  have hx : xirr cashflows dates guess maxIter tol =
      newtonLoop (xnpv (xirrDays cashflows dates)) (xdnpv (xirrDays cashflows dates))
        tol maxIter guess := by
    unfold xirr
    rw [if_neg (fun hh => hh hlen), if_neg (by omega : ¬cashflows.length < 2)]
  constructor
  · rw [hx]
    exact newtonLoop_outcomes _ _ _ maxIter guess
  · intro hit htol
    rw [hx]
    rcases maxIter with _ | n
    · omega
    · rw [newtonLoop, if_pos htol]

/-- Witness for C3 at the cashflows [-1, 2] on days [0, 365] with the
default guess, iteration budget and tolerance. -/
theorem xirr_outcomes_witness :
    (∃ ρ, xirr [(-1 : ℝ), 2] [(0 : ℤ), 365] (1 / 10) 100 (1 / 1000000) = .ok (round6 ρ) ∧
        |xnpv (xirrDays [(-1 : ℝ), 2] [(0 : ℤ), 365]) ρ| < 1 / 1000000)
      ∨ xirr [(-1 : ℝ), 2] [(0 : ℤ), 365] (1 / 10) 100 (1 / 1000000)
          = .error .convergenceFailure
      ∨ xirr [(-1 : ℝ), 2] [(0 : ℤ), 365] (1 / 10) 100 (1 / 1000000)
          = .error .outOfBounds :=
  (xirr_outcomes [(-1 : ℝ), 2] [(0 : ℤ), 365] (1 / 10) 100 (1 / 1000000)
    rfl (by decide)).1

/-- In a list of pairs sorted by date, the head's date bounds every
member's date. -/
theorem sorted_head_min_cf (x : ℝ × ℤ) (t : List (ℝ × ℤ))
    (hs : (x :: t).Sorted cfDateLe) (q : ℝ × ℤ) (hq : q ∈ x :: t) : x.2 ≤ q.2 := by
  rcases mem_cons.1 hq with h1 | h1
  · rw [h1]
  · exact rel_of_sorted_cons hs q h1

/-- Claim C9: `xirr` is invariant under any joint permutation of the
(amount, date) pairs — the inputs need not be pre-sorted because the solver
sorts both lists jointly by date before iterating. -/
theorem xirr_perm_invariant (a1 a2 : List ℝ) (d1 d2 : List ℤ) (guess : ℝ)
    (maxIter : ℕ) (tol : ℝ) (hlen1 : a1.length = d1.length)
    (hlen2 : a2.length = d2.length) (h2 : 2 ≤ a1.length)
    (hperm : (a1.zip d1).Perm (a2.zip d2)) :
    xirr a1 d1 guess maxIter tol = xirr a2 d2 guess maxIter tol := by
  have hz1 : (a1.zip d1).length = a1.length := by rw [length_zip, hlen1, min_self]
  have hz2 : (a2.zip d2).length = a2.length := by rw [length_zip, hlen2, min_self]
  have hlen12 : a2.length = a1.length := by rw [← hz2, ← hperm.length_eq, hz1]
  have hs1 : (sortCashflows (a1.zip d1)).Sorted cfDateLe := sorted_insertionSort cfDateLe _
  have hs2 : (sortCashflows (a2.zip d2)).Sorted cfDateLe := sorted_insertionSort cfDateLe _
  have hp1 : (sortCashflows (a1.zip d1)).Perm (a1.zip d1) := perm_insertionSort cfDateLe _
  have hp2 : (sortCashflows (a2.zip d2)).Perm (a2.zip d2) := perm_insertionSort cfDateLe _
  have hss : (sortCashflows (a1.zip d1)).Perm (sortCashflows (a2.zip d2)) :=
    hp1.trans (hperm.trans hp2.symm)
  have hne1 : sortCashflows (a1.zip d1) ≠ [] := by
    intro hnil
    have hl := hp1.length_eq
    rw [hnil, hz1] at hl
    simp at hl
    omega
  have hne2 : sortCashflows (a2.zip d2) ≠ [] := by
    intro hnil
    have hl := hp2.length_eq
    rw [hnil, hz2] at hl
    simp at hl
    omega
  obtain ⟨x1, t1, he1⟩ := exists_cons_of_ne_nil hne1
  obtain ⟨x2, t2, he2⟩ := exists_cons_of_ne_nil hne2
  have hx12 : x1.2 = x2.2 := by
    have hm2 : x2 ∈ sortCashflows (a1.zip d1) :=
      hss.mem_iff.2 (by rw [he2]; exact mem_cons_self _ _)
    have hm1 : x1 ∈ sortCashflows (a2.zip d2) :=
      hss.symm.mem_iff.2 (by rw [he1]; exact mem_cons_self _ _)
    exact le_antisymm
      (sorted_head_min_cf x1 t1 (he1 ▸ hs1) x2 (he1 ▸ hm2))
      (sorted_head_min_cf x2 t2 (he2 ▸ hs2) x1 (he2 ▸ hm1))
  have hdays : (xirrDays a1 d1).Perm (xirrDays a2 d2) := by
    unfold xirrDays
    rw [he1, he2]
    simp only [head?_cons, Option.elim_some]
    rw [hx12]
    exact (he1 ▸ he2 ▸ hss : (x1 :: t1).Perm (x2 :: t2)).map _
  have hnpv : xnpv (xirrDays a1 d1) = xnpv (xirrDays a2 d2) :=
    funext fun rate => (hdays.map _).sum_eq
  have hdnpv : xdnpv (xirrDays a1 d1) = xdnpv (xirrDays a2 d2) :=
    funext fun rate => (hdays.map _).sum_eq
  unfold xirr
  rw [if_neg (fun hh => hh hlen1), if_neg (by omega : ¬a1.length < 2),
    if_neg (fun hh => hh hlen2), if_neg (by omega : ¬a2.length < 2), hnpv, hdnpv]

/-- Witness for C9: swapping the two (amount, date) pairs leaves the xirr
result unchanged. -/
theorem xirr_perm_invariant_witness :
    xirr [(-1 : ℝ), 2] [(0 : ℤ), 365] (1 / 10) 100 (1 / 1000000)
      = xirr [(2 : ℝ), -1] [(365 : ℤ), 0] (1 / 10) 100 (1 / 1000000) :=
  xirr_perm_invariant [(-1 : ℝ), 2] [(2 : ℝ), -1] [(0 : ℤ), 365] [(365 : ℤ), 0]
    (1 / 10) 100 (1 / 1000000) rfl rfl (by decide)
    (List.Perm.swap ((2 : ℝ), (365 : ℤ)) ((-1 : ℝ), (0 : ℤ)) [])

/-- Forward as-of match (`pd.merge_asof(..., direction='forward')`) on a
date-sorted series: the first row whose date is at or after the target. -/
def asofForward (nav : List NavRow) (t : ℤ) : Option NavRow :=
  (nav.filter (fun p => t ≤ p.1)).head?

/-- The result dictionary of `calculate_sip_returns`. -/
structure SipResult where
  total_invested : ℝ
  current_value : ℝ
  absolute_returns : ℝ
  return_percentage : ℝ
  annualized_return : ℝ
  total_units : ℝ
  current_nav : ℝ
  investment_period_days : ℤ

/-- Embedding of `calculate_sip_returns(sip_cashflows, nav_df, column)` from
return_metrics.py.  Both frames are sorted by date; the forward merge_asof
keeps every contribution row, so `merged['amount'].sum()` totals ALL
contribution amounts, while an unmatched contribution has NaN units which
pandas `.sum()` skips — it adds no units.  `current_nav` is the last NAV
row (IndexError — an error value here — if the NAV frame is empty);
`annualized_return` applies the simple-CAGR approximation over
`(last NAV date - first contribution date) / 365.25` years only when there
is more than one contribution, and is 0 otherwise. -/
noncomputable def calculate_sip_returns (sip nav : List NavRow) :
    Except MetricError SipResult :=
  (sortByDate nav).getLast?.elim (.error .invalidInput) (fun lastNav =>
    let sipS := sortByDate sip
    let navS := sortByDate nav
    let total_invested := (sipS.map Prod.snd).sum
    let total_units :=
      (sipS.filterMap (fun c => (asofForward navS c.1).map (fun q => c.2 / q.2))).sum
    let current_nav := lastNav.2
    let current_value := total_units * current_nav
    let absolute_returns := current_value - total_invested
    let return_percentage :=
      if 0 < total_invested then absolute_returns / total_invested * 100 else 0
    let annualized_return :=
      if 1 < sipS.length then
        sipS.head?.elim 0 (fun c0 =>
          if 0 < ((lastNav.1 - c0.1 : ℤ) : ℝ) / (365.25 : ℝ) ∧ 0 < total_invested then
            ((current_value / total_invested) ^
              (1 / (((lastNav.1 - c0.1 : ℤ) : ℝ) / (365.25 : ℝ))) - 1) * 100
          else 0)
      else 0
    .ok { total_invested := round2 total_invested,
          current_value := round2 current_value,
          absolute_returns := round2 absolute_returns,
          return_percentage := round2 return_percentage,
          annualized_return := round2 annualized_return,
          total_units := round4 total_units,
          current_nav := round2 current_nav,
          investment_period_days := sipS.head?.elim 0 (fun c0 => lastNav.1 - c0.1) })

/-- Modelled from the spec's words, for comparison against the code in C2:
`total_invested = Σ amount` over the forward-matched contributions only. -/
noncomputable def specMatchedInvested (sip nav : List NavRow) : ℝ :=
  ((sortByDate sip).filterMap
    (fun c => (asofForward (sortByDate nav) c.1).map (fun _ => c.2))).sum

/-- Claim C2 (amended): `total_invested` sums the amounts of ALL
contributions — also those with no subsequent NAV point — while an
unmatched contribution contributes no units: `total_units` sums
`amount / matched_nav` over forward-matched contributions only. -/
theorem sip_total_invested_spec (sip nav : List NavRow) (hn : nav ≠ []) :
    Except.map SipResult.total_invested (calculate_sip_returns sip nav)
      = .ok (round2 ((sip.map Prod.snd).sum))
    ∧ Except.map SipResult.total_units (calculate_sip_returns sip nav)
      = .ok (round4 (((sortByDate sip).filterMap
          (fun c => (asofForward (sortByDate nav) c.1).map (fun q => c.2 / q.2))).sum)) := by
  have hsne : sortByDate nav ≠ [] := by
    have hp : (sortByDate nav).Perm nav := perm_insertionSort dateLe nav
    intro hnil
    have hl := hp.length_eq
    rw [hnil] at hl
    exact hn (List.length_eq_zero.1 hl.symm)
  have hge : (sortByDate nav).getLast? = some ((sortByDate nav).getLast hsne) :=
    getLast?_eq_getLast _ hsne
  have hsum : ((sortByDate sip).map Prod.snd).sum = (sip.map Prod.snd).sum :=
    ((perm_insertionSort dateLe sip).map Prod.snd).sum_eq
  unfold calculate_sip_returns
  rw [hge]
  simp only [Option.elim_some, Except.map]
  exact ⟨by rw [hsum], trivial⟩

/-- Witness for the amended C2 at the single contribution (0, 100) and the
single NAV row (0, 10). -/
theorem sip_total_invested_spec_witness :
    Except.map SipResult.total_invested
        (calculate_sip_returns [((0 : ℤ), (100 : ℝ))] [((0 : ℤ), (10 : ℝ))])
      = .ok (round2 (([((0 : ℤ), (100 : ℝ))].map Prod.snd).sum))
    ∧ Except.map SipResult.total_units
        (calculate_sip_returns [((0 : ℤ), (100 : ℝ))] [((0 : ℤ), (10 : ℝ))])
      = .ok (round4 (((sortByDate [((0 : ℤ), (100 : ℝ))]).filterMap
          (fun c => (asofForward (sortByDate [((0 : ℤ), (10 : ℝ))]) c.1).map
            (fun q => c.2 / q.2))).sum)) :=
  sip_total_invested_spec [((0 : ℤ), (100 : ℝ))] [((0 : ℤ), (10 : ℝ))] (by simp)

/-- Counterexample to C2 as stated: with contributions [(0, 100), (10, 50)]
and NAV rows [(0, 10), (5, 10)], the day-10 contribution has no NAV point at
or after it, yet the reported total_invested is 150 — the sum over ALL
contributions — whereas the sum over forward-matched contributions only
is 100. -/
theorem sip_total_invested_cex :
    Except.map SipResult.total_invested
        (calculate_sip_returns [((0 : ℤ), (100 : ℝ)), (10, 50)]
          [((0 : ℤ), (10 : ℝ)), (5, 10)])
      = .ok 150
    ∧ specMatchedInvested [((0 : ℤ), (100 : ℝ)), (10, 50)] [((0 : ℤ), (10 : ℝ)), (5, 10)] = 100
    ∧ (150 : ℝ) ≠ 100 := by
  refine ⟨?_, ?_, by norm_num⟩
  · norm_num [calculate_sip_returns, sortByDate, insertionSort, orderedInsert, dateLe,
      asofForward, Except.map, round2, round_eq]
  · norm_num [specMatchedInvested, sortByDate, insertionSort, orderedInsert, dateLe,
      asofForward, List.find?, List.filterMap_cons, Option.map_some, Option.map_none,
      List.sum_cons, List.sum_nil]

/-- Claim C8 (amended): with at least two contributions the reported
annualized return equals, rounded to 2 decimals,
`((current_value / total_invested)^(1/years) - 1) * 100` when `years > 0`
and `total_invested > 0` — where `years` is the days from the first
contribution date to the last NAV date divided by 365.25 and the aggregates
are the pre-rounding ones — and 0 when `years ≤ 0` or
`total_invested ≤ 0`.  (With fewer than two contributions it is 0 — C10.) -/
theorem sip_annualized_spec (sip nav : List NavRow) (hsip : SortedByDate sip)
    (hnav : SortedByDate nav) (c0 : NavRow) (hc0 : sip.head? = some c0)
    (lastN : NavRow) (hl : nav.getLast? = some lastN) (h2 : 2 ≤ sip.length) :
    Except.map SipResult.annualized_return (calculate_sip_returns sip nav)
      = .ok (round2 (
        if 0 < ((lastN.1 - c0.1 : ℤ) : ℝ) / (365.25 : ℝ) ∧
            0 < (sip.map Prod.snd).sum then
          ((((sip.filterMap (fun c => (asofForward nav c.1).map (fun q => c.2 / q.2))).sum *
              lastN.2) / (sip.map Prod.snd).sum) ^
            (1 / (((lastN.1 - c0.1 : ℤ) : ℝ) / (365.25 : ℝ))) - 1) * 100
        else 0)) := by
  have hs2 : sortByDate sip = sip := Sorted.insertionSort_eq hsip
  have hn2 : sortByDate nav = nav := Sorted.insertionSort_eq hnav
  unfold calculate_sip_returns
  rw [hs2, hn2, hl]
  simp only [Option.elim_some, Except.map]
  rw [if_pos (by omega : 1 < sip.length), hc0]
  simp only [Option.elim_some]

/-- Witness for the amended C8 at contributions [(0, 100), (30, 100)] and
NAV rows [(0, 10), (365, 20)]. -/
theorem sip_annualized_spec_witness :
    Except.map SipResult.annualized_return
        (calculate_sip_returns [((0 : ℤ), (100 : ℝ)), (30, 100)]
          [((0 : ℤ), (10 : ℝ)), (365, 20)])
      = .ok (round2 (
        if 0 < ((((365 : ℤ), (20 : ℝ)).1 - ((0 : ℤ), (100 : ℝ)).1 : ℤ) : ℝ) / (365.25 : ℝ) ∧
            0 < ([((0 : ℤ), (100 : ℝ)), (30, 100)].map Prod.snd).sum then
          (((([((0 : ℤ), (100 : ℝ)), (30, 100)].filterMap
              (fun c => (asofForward [((0 : ℤ), (10 : ℝ)), (365, 20)] c.1).map
                (fun q => c.2 / q.2))).sum * ((365 : ℤ), (20 : ℝ)).2) /
              ([((0 : ℤ), (100 : ℝ)), (30, 100)].map Prod.snd).sum) ^
            (1 / (((((365 : ℤ), (20 : ℝ)).1 - ((0 : ℤ), (100 : ℝ)).1 : ℤ) : ℝ) /
              (365.25 : ℝ))) - 1) * 100
        else 0)) :=
  sip_annualized_spec [((0 : ℤ), (100 : ℝ)), (30, 100)] [((0 : ℤ), (10 : ℝ)), (365, 20)]
    (by decide) (by decide) ((0 : ℤ), (100 : ℝ)) rfl ((365 : ℤ), (20 : ℝ)) rfl (by decide)

/-- Counterexample to C8 as stated: with the single contribution (0, 100)
and NAV rows [(0, 10), (365, 20)], elapsed years and total invested are both
positive and the claimed formula value `(2^(365.25/365) - 1) * 100` is
nonzero, yet the reported annualized return is 0 (the single-entry gate). -/
theorem sip_annualized_cex :
    Except.map SipResult.annualized_return
        (calculate_sip_returns [((0 : ℤ), (100 : ℝ))] [((0 : ℤ), (10 : ℝ)), (365, 20)])
      = .ok 0
    ∧ (0 : ℝ) < (365 : ℝ) / (365.25 : ℝ)
    ∧ (0 : ℝ) < 100
    ∧ (((200 : ℝ) / 100) ^ (1 / ((365 : ℝ) / (365.25 : ℝ))) - 1) * 100 ≠ 0 := by
  refine ⟨?_, by norm_num, by norm_num, ?_⟩
  · norm_num [calculate_sip_returns, sortByDate, insertionSort, orderedInsert, dateLe,
      Except.map, round2, round_eq]
  · have h2 : ((200 : ℝ) / 100) = 2 := by norm_num
    rw [h2]
    have h1 : (1 : ℝ) < (2 : ℝ) ^ ((1 : ℝ) / ((365 : ℝ) / (365.25 : ℝ))) :=
      (Real.one_lt_rpow_iff_of_pos (by norm_num)).2 (Or.inl ⟨by norm_num, by norm_num⟩)
    exact ne_of_gt (by nlinarith [h1])

/-- Claim C10: a single-entry contribution series yields annualized return
0, even when the elapsed time from the contribution to the last NAV date is
positive and the invested amount is positive. -/
theorem sip_single_entry_annualized_zero (d : ℤ) (a : ℝ) (nav : List NavRow)
    (lastN : NavRow) (hnav : SortedByDate nav) (hl : nav.getLast? = some lastN)
    (hd : d < lastN.1) (ha : 0 < a) :
    Except.map SipResult.annualized_return (calculate_sip_returns [(d, a)] nav)
      = .ok 0 := by
  have hn2 : sortByDate nav = nav := Sorted.insertionSort_eq hnav
  unfold calculate_sip_returns
  rw [hn2, hl]
  simp only [Option.elim_some, Except.map]
  norm_num [sortByDate, insertionSort, orderedInsert, round2]

/-- Witness for C10 at the contribution (0, 100) against the NAV rows
[(0, 10), (365, 20)]. -/
theorem sip_single_entry_annualized_zero_witness :
    Except.map SipResult.annualized_return
        (calculate_sip_returns [((0 : ℤ), (100 : ℝ))] [((0 : ℤ), (10 : ℝ)), (365, 20)])
      = .ok 0 :=
  sip_single_entry_annualized_zero 0 100 [((0 : ℤ), (10 : ℝ)), (365, 20)]
    ((365 : ℤ), (20 : ℝ)) (by decide) rfl (by decide) (by norm_num)

end Cagrx
